import Mathlib

/- Shallow embedding of src/main.py, a one-shot Titanic CSV analysis script
built on pandas.  Tables are modelled as lists of rows; a missing value
(NaN) is Option.none; real arithmetic is modelled over the rationals.
Python exceptions that can escape the statistics block (ZeroDivisionError,
KeyError, ValueError) are modelled with Except. -/

namespace Titanic

/-- One row of the passenger table, after type inference by the CSV reader.
Survived, Pclass and SibSp are integers and never missing in the schema;
Sex, Fare, Embarked, Age and Ticket may be missing, modelled with Option. -/
structure Row where
  Survived : Int
  Pclass : Int
  Sex : Option String
  SibSp : Int
  Fare : Option ℚ
  Embarked : Option String
  Age : Option ℚ
  Ticket : Option String
deriving Repr, DecidableEq

/-- A pandas DataFrame holding the Titanic schema: an ordered list of rows. -/
abbrev Table := List Row

/-- Runtime failures that can escape the statistics block of main:
ZeroDivisionError (integer division by zero), KeyError (Series getitem at an
absent label, the label rendered as a string), ValueError (idxmax of an
empty series). -/
inductive RunErr where
  | zeroDivisionError
  | keyError (k : String)
  | valueError
deriving Repr, DecidableEq

/-- Raw CSV as handed back by pd.read_csv before any cleaning: named
columns, each with its cell strings in row order. -/
structure Csv where
  cols : List (String × List String)
deriving Repr, DecidableEq

/-- Boolean test that p occurs as a contiguous run at the front of l. -/
def isPrefixOfB : List Char → List Char → Bool
  | [], _ => true
  | _ :: _, [] => false
  | a :: as, b :: bs => a == b && isPrefixOfB as bs

/-- Boolean test that p occurs as a contiguous run somewhere in l. -/
def isInfixOfB (p : List Char) : List Char → Bool
  | [] => isPrefixOfB p []
  | b :: bs => isPrefixOfB p (b :: bs) || isInfixOfB p bs

/-- Python membership test on strings: pat in s holds when pat is a
substring of s. -/
def strContains (s pat : String) : Bool :=
  isInfixOfB pat.data s.data

/-- Outcome of pd.read_csv at the given path: a parsed CSV, or one of the
exceptions the loader catches (FileNotFoundError, EmptyDataError,
ParserError, anything else). -/
inductive ReadResult where
  | fileNotFound
  | emptyData
  | parserError
  | otherError (msg : String)
  | ok (df : Csv)
deriving Repr, DecidableEq

/-- Column names selected for dropping by the loader: every column of the
frame whose name has Unnamed as a substring (the list comprehension on
line 18 of main.py). -/
def unnamedCols (df : Csv) : List String :=
  (df.cols.map Prod.fst).filter (fun c => strContains c "Unnamed")

/-- DataFrame.drop with a columns list: remove the named columns, keeping
every other column, its values and the row order intact. -/
def dropColumns (df : Csv) (names : List String) : Csv :=
  Csv.mk (df.cols.filter (fun c => !(names.contains c.1)))

/-- load_dataset (main.py lines 5-31): read the CSV, drop Unnamed columns,
and catch every reader exception, printing one message and returning None.
The result is the list of printed lines together with the optional cleaned
frame; every failure branch yields none, so no exception escapes to the
caller. -/
def load_dataset (file_path : String) (read : ReadResult) :
    List String × Option Csv :=
  match read with
  | .ok df => ([], some (dropColumns df (unnamedCols df)))
  | .fileNotFound =>
      (["Error: The file at " ++ file_path ++ " was not found."], none)
  | .emptyData => (["Error: The file is empty."], none)
  | .parserError => (["Error: There was a problem parsing the file."], none)
  | .otherError e => (["An error occurred: " ++ e], none)

/-- calculate_survival_rate (main.py lines 33-45): survived.sum divided by
len, times 100.  On a zero-row table the division raises ZeroDivisionError:
the only zero-row table the script can build comes from a header-only CSV,
whose columns have object dtype, so the empty sum is the Python int 0 and
0 / 0 on Python ints raises.  On a non-empty table the denominator is
positive and the rate is returned. -/
def calculate_survival_rate (t : Table) : Except RunErr ℚ :=
  if t.length = 0 then .error .zeroDivisionError
  else .ok (((t.map (fun r => r.Survived)).sum : ℚ) / (t.length : ℚ) * 100)

/-- Series.value_counts with default arguments: one entry per distinct
non-missing value with its count, ordered by descending count. -/
def value_counts (vals : List (Option String)) : List (String × Nat) :=
  let xs := vals.filterMap id
  (xs.dedup.map (fun k => (k, xs.count k))).insertionSort
    (fun a b => b.2 ≤ a.2)

/-- calculate_gender_proportion (main.py lines 47-57):
Sex.value_counts(normalize=True) * 100 — each Sex category present, with
its count divided by the number of rows with non-missing Sex, times 100,
ordered by descending share. -/
def calculate_gender_proportion (t : Table) : List (String × ℚ) :=
  let xs := (t.map (fun r => r.Sex)).filterMap id
  (xs.dedup.map
      (fun k => (k, ((xs.count k : ℚ) / (xs.length : ℚ)) * 100))).insertionSort
    (fun a b => b.2 ≤ a.2)

/-- Group keys of DataFrame.groupby on an integer column: the distinct
values in ascending order (groupby sorts keys and drops missing ones; an
integer column has none missing). -/
def groupKeysI (vals : List Int) : List Int :=
  vals.dedup.insertionSort (fun a b => a ≤ b)

/-- Group keys of DataFrame.groupby on an optional string column: the
distinct non-missing values in ascending order. -/
def groupKeysS (vals : List (Option String)) : List String :=
  (vals.filterMap id).dedup.insertionSort (fun a b => a ≤ b)

/-- Mean of the Survived column over a group of rows.  Groups produced by
groupby are never empty, so the denominator is positive there. -/
def survivedMean (grp : Table) : ℚ :=
  ((grp.map (fun r => r.Survived)).sum : ℚ) / (grp.length : ℚ)

/-- calculate_class_survival_rate (main.py lines 59-69):
groupby(Pclass).Survived.mean() * 100, one entry per class value present. -/
def calculate_class_survival_rate (t : Table) : List (Int × ℚ) :=
  (groupKeysI (t.map (fun r => r.Pclass))).map
    (fun k => (k, survivedMean (t.filter (fun r => r.Pclass == k)) * 100))

/-- count_siblings_spouses_aboard (main.py lines 71-81): the sum of the
boolean mask SibSp > 0, i.e. the number of rows with positive SibSp. -/
def count_siblings_spouses_aboard (t : Table) : Nat :=
  t.countP (fun r => 0 < r.SibSp)

/-- Series.mean with default skipna: the mean of the non-missing values of
Fare in a group, or NaN (none) when every value in the group is missing. -/
def fareMean (grp : Table) : Option ℚ :=
  let xs := grp.filterMap (fun r => r.Fare)
  if xs.length = 0 then none else some (xs.sum / (xs.length : ℚ))

/-- calculate_average_fare_by_class (main.py lines 83-93):
groupby(Pclass).Fare.mean(), one entry per class value present. -/
def calculate_average_fare_by_class (t : Table) : List (Int × Option ℚ) :=
  (groupKeysI (t.map (fun r => r.Pclass))).map
    (fun k => (k, fareMean (t.filter (fun r => r.Pclass == k))))

/-- count_passengers_by_port (main.py lines 95-105):
Embarked.value_counts(), rows with missing Embarked excluded. -/
def count_passengers_by_port (t : Table) : List (String × Nat) :=
  value_counts (t.map (fun r => r.Embarked))

/-- calculate_gender_survival_rate (main.py lines 107-117):
groupby(Sex).Survived.mean() * 100, one entry per Sex value present. -/
def calculate_gender_survival_rate (t : Table) : List (String × ℚ) :=
  (groupKeysS (t.map (fun r => r.Sex))).map
    (fun k => (k, survivedMean (t.filter (fun r => r.Sex == some k)) * 100))

/-- count_unique_tickets (main.py lines 119-129): Ticket.nunique(), the
number of distinct non-missing Ticket values (nunique drops NaN by
default). -/
def count_unique_tickets (t : Table) : Nat :=
  (t.filterMap (fun r => r.Ticket)).dedup.length

/-- Series getitem by string label: the value at the key, or a KeyError
escaping when the label is absent. -/
def seriesGetS {α : Type} (m : List (String × α)) (k : String) :
    Except RunErr α :=
  match m.lookup k with
  | some v => .ok v
  | none => .error (.keyError k)

/-- Series getitem by integer label: the value at the key, or a KeyError
escaping when the label is absent. -/
def seriesGetI {α : Type} (m : List (Int × α)) (k : Int) : Except RunErr α :=
  match m.lookup k with
  | some v => .ok v
  | none => .error (.keyError (toString k))

/-- Scan of Series.idxmax: starting from a current best label and value,
keep the earlier entry unless a strictly greater value appears. -/
def idxmaxFrom (k : Int) (v : ℚ) : List (Int × ℚ) → Int × ℚ
  | [] => (k, v)
  | p :: rest => if v < p.2 then idxmaxFrom p.1 p.2 rest else idxmaxFrom k v rest

/-- Series.idxmax: the label of the first occurrence of the maximum value;
ValueError on an empty series. -/
def idxmax : List (Int × ℚ) → Except RunErr Int
  | [] => .error .valueError
  | p :: rest => .ok (idxmaxFrom p.1 p.2 rest).1

/-- Values computed by the statistics block of main (main.py lines
167-199), in evaluation order. -/
structure Report where
  survival_rate : ℚ
  gender_male : ℚ
  gender_female : ℚ
  highest_survival_class : Int
  class_rate1 : ℚ
  class_rate2 : ℚ
  class_rate3 : ℚ
  sibsp_count : Nat
  fare1 : Option ℚ
  fare2 : Option ℚ
  fare3 : Option ℚ
  embarked_C : Nat
  embarked_Q : Nat
  embarked_S : Nat
  gender_survival_male : ℚ
  gender_survival_female : ℚ
  unique_ticket_count : Nat
deriving Repr, DecidableEq

/-- Statistics block of main (main.py lines 167-199) over a loaded table:
each statistic is computed and indexed in source order; nothing is caught
here, so the first exception terminates the block. -/
def run_stats (t : Table) : Except RunErr Report := do
  let sr ← calculate_survival_rate t
  let gender_distribution := calculate_gender_proportion t
  let gm ← seriesGetS gender_distribution "male"
  let gf ← seriesGetS gender_distribution "female"
  let class_survival_rate := calculate_class_survival_rate t
  let highest ← idxmax class_survival_rate
  let c1 ← seriesGetI class_survival_rate 1
  let c2 ← seriesGetI class_survival_rate 2
  let c3 ← seriesGetI class_survival_rate 3
  let sibsp := count_siblings_spouses_aboard t
  let afc := calculate_average_fare_by_class t
  let f1 ← seriesGetI afc 1
  let f2 ← seriesGetI afc 2
  let f3 ← seriesGetI afc 3
  let ec := count_passengers_by_port t
  let eC ← seriesGetS ec "C"
  let eQ ← seriesGetS ec "Q"
  let eS ← seriesGetS ec "S"
  let gsr := calculate_gender_survival_rate t
  let gsm ← seriesGetS gsr "male"
  let gsf ← seriesGetS gsr "female"
  let uniq := count_unique_tickets t
  return ⟨sr, gm, gf, highest, c1, c2, c3, sibsp, f1, f2, f3,
    eC, eQ, eS, gsm, gsf, uniq⟩

/-- Top-level flow of main (main.py lines 162-202): load, and only when a
table came back run the statistics block and the visualization.  typedOf
stands for the typed view pandas gives the parsed CSV.  A none in the
second component means every statistic and visualization call was
skipped. -/
def main_run (typedOf : Csv → Table) (file_path : String)
    (read : ReadResult) : List String × Option (Except RunErr Report) :=
  match load_dataset file_path read with
  | (msgs, none) => (msgs, none)
  | (msgs, some df) => (msgs, some (run_stats (typedOf df)))

/-- State-passing view of one statistic call.  The pandas operations the
statistics functions use (len, Series.sum, broadcast comparison,
value_counts, groupby mean, nunique) all build fresh objects and leave the
frame untouched, so a call returns its aggregate together with the
unchanged table. -/
def run_stat {α : Type} (f : Table → α) (t : Table) : α × Table :=
  (f t, t)

/-- Concrete female first-class passenger used as a test fixture. -/
def rowA : Row :=
  ⟨1, 1, some "female", 0, some 100, some "C", some 38, some "A"⟩

/-- Concrete male third-class passenger used as a test fixture. -/
def rowB : Row :=
  ⟨0, 3, some "male", 1, some 10, some "S", some 22, some "B"⟩

/-- Concrete passenger with a missing Ticket, used as a test fixture. -/
def rowNoTicket : Row :=
  ⟨1, 2, some "female", 0, some 20, some "Q", none, none⟩

/-! Helper lemmas shared between the claim theorems. -/

/-- An association-list lookup misses exactly when no stored key matches. -/
lemma lookup_eq_none_of_keys_ne {α β : Type} [BEq α] [LawfulBEq α]
    (l : List (α × β)) (k : α) (h : ∀ p ∈ l, p.1 ≠ k) :
    l.lookup k = none := by
  induction l with
  | nil => rfl
  | cons p l ih =>
    simp only [List.lookup]
    have hne : (k == p.1) = false := by
      have := h p (by simp)
      simp [Ne.symm this]
    rw [hne]
    exact ih (fun q hq => h q (by simp [hq]))

/-- Summing a 0/1-valued Survived column counts the rows with Survived = 1. -/
lemma sum_survived_eq_countP (t : Table)
    (h : ∀ r ∈ t, r.Survived = 0 ∨ r.Survived = 1) :
    (t.map (fun r => (r.Survived : ℚ))).sum =
      (t.countP (fun r => r.Survived == 1) : ℚ) := by
  induction t with
  | nil => simp
  | cons a t ih =>
    have ha := h a (by simp)
    have ht := ih (fun r hr => h r (by simp [hr]))
    rcases ha with h0 | h1
    · simp [List.countP_cons, h0, ht]
    · simp [List.countP_cons, h1, ht, add_comm]

/-! C1 -/

/-- C1: on every non-empty table whose Survived column is 0/1-valued,
calculate_survival_rate returns the percentage of rows with Survived = 1
over all rows; in particular an all-zero column gives 0 and an all-one
column gives 100. -/
theorem survival_rate_spec (t : Table) (hne : t ≠ [])
    (h01 : ∀ r ∈ t, r.Survived = 0 ∨ r.Survived = 1) :
    calculate_survival_rate t =
      .ok (((t.countP (fun r => r.Survived == 1) : ℚ) / (t.length : ℚ)) * 100) ∧
    ((∀ r ∈ t, r.Survived = 0) → calculate_survival_rate t = .ok 0) ∧
    ((∀ r ∈ t, r.Survived = 1) → calculate_survival_rate t = .ok 100) := by
  have hlen : t.length ≠ 0 := fun h => hne (List.length_eq_zero.1 h)
  have hmain : calculate_survival_rate t =
      .ok (((t.countP (fun r => r.Survived == 1) : ℚ) / (t.length : ℚ)) * 100) := by
    rw [calculate_survival_rate, if_neg hlen, sum_survived_eq_countP t h01]
  refine ⟨hmain, fun hz => ?_, fun ho => ?_⟩
  · have hc : t.countP (fun r => r.Survived == 1) = 0 :=
      List.countP_eq_zero.2 (fun r hr => by simp [hz r hr])
    rw [hmain, hc]
    norm_num
  · have hc : t.countP (fun r => r.Survived == 1) = t.length :=
      List.countP_eq_length.2 (fun r hr => by simp [ho r hr])
    rw [hmain, hc]
    have hq : (t.length : ℚ) ≠ 0 := Nat.cast_ne_zero.2 hlen
    field_simp

/-- Witness for C1 at a concrete two-row table with one survivor. -/
theorem survival_rate_spec_witness :
    ([rowA, rowB] : Table) ≠ [] ∧
    calculate_survival_rate [rowA, rowB] = .ok 50 := by
  refine ⟨by simp, ?_⟩
  have h := (survival_rate_spec [rowA, rowB] (by simp)
    (by decide)).1
  rw [h]
  norm_num [rowA, rowB]

/-! C2 -/

/-- C2: loading a nonexistent path prints exactly the not-found message and
returns an absent table (the catch converts the exception, so none escapes),
and main then skips every statistic and visualization call: the second
component of main_run is none, meaning the statistics block never ran. -/
theorem load_not_found_skips_all (typedOf : Csv → Table) (fp : String) :
    load_dataset fp .fileNotFound =
      (["Error: The file at " ++ fp ++ " was not found."], none) ∧
    main_run typedOf fp .fileNotFound =
      (["Error: The file at " ++ fp ++ " was not found."], none) :=
  ⟨rfl, rfl⟩

/-! C3 -/

/-- C3: on a zero-row table the survival-rate computation raises
ZeroDivisionError — a defined failure — rather than returning any value. -/
theorem survival_rate_empty_raises (t : Table) (h : t.length = 0) :
    calculate_survival_rate t = .error .zeroDivisionError ∧
    ∀ q : ℚ, calculate_survival_rate t ≠ .ok q := by
  rw [calculate_survival_rate, if_pos h]
  exact ⟨rfl, fun q hq => by cases hq⟩

/-- Witness for C3 at the empty table. -/
theorem survival_rate_empty_raises_witness :
    ([] : Table).length = 0 ∧
    calculate_survival_rate [] = .error .zeroDivisionError :=
  ⟨rfl, (survival_rate_empty_raises [] rfl).1⟩

/-! C9 -/

/-- C9: in the state-passing view of the statistics block, each of the eight
aggregate functions returns the table unchanged alongside its aggregate:
the pandas operations each embeds are all non-mutating. -/
theorem stats_leave_table_unchanged (t : Table) :
    (run_stat calculate_survival_rate t).2 = t ∧
    (run_stat calculate_gender_proportion t).2 = t ∧
    (run_stat calculate_class_survival_rate t).2 = t ∧
    (run_stat count_siblings_spouses_aboard t).2 = t ∧
    (run_stat calculate_average_fare_by_class t).2 = t ∧
    (run_stat count_passengers_by_port t).2 = t ∧
    (run_stat calculate_gender_survival_rate t).2 = t ∧
    (run_stat count_unique_tickets t).2 = t :=
  ⟨rfl, rfl, rfl, rfl, rfl, rfl, rfl, rfl⟩

/-! C10 -/

/-- C10: count_unique_tickets is the number of distinct non-missing Ticket
values, and a row whose Ticket is missing contributes nothing to the count
(no error, no extra distinct value). -/
theorem unique_tickets_spec (t : Table) :
    count_unique_tickets t =
      (t.filterMap (fun r => r.Ticket)).toFinset.card ∧
    ∀ r : Row, r.Ticket = none →
      count_unique_tickets (r :: t) = count_unique_tickets t := by
  constructor
  · simp [count_unique_tickets, List.card_toFinset]
  · intro r hr
    simp [count_unique_tickets, List.filterMap_cons, hr]

/-- Witness for C10: a missing-Ticket row leaves the distinct count at 2. -/
theorem unique_tickets_spec_witness :
    rowNoTicket.Ticket = none ∧
    count_unique_tickets [rowNoTicket, rowA, rowB] =
      count_unique_tickets [rowA, rowB] ∧
    count_unique_tickets [rowA, rowB] =
      (([rowA, rowB] : Table).filterMap (fun r => r.Ticket)).toFinset.card :=
  ⟨rfl, (unique_tickets_spec [rowA, rowB]).2 rowNoTicket rfl,
    (unique_tickets_spec [rowA, rowB]).1⟩

/-! C7 -/

/-- C7: on a successful read the loader returns exactly the input columns
minus those whose name has Unnamed as a substring; the surviving columns
keep their names, their cell lists (hence the row order) and their relative
order, and nothing is printed. -/
theorem load_keeps_non_unnamed_columns (fp : String) (df : Csv) :
    load_dataset fp (.ok df) =
      ([], some (Csv.mk
        (df.cols.filter (fun c => !(strContains c.1 "Unnamed"))))) := by
  simp only [load_dataset, dropColumns, unnamedCols, Prod.mk.injEq,
    Option.some.injEq, Csv.mk.injEq, true_and]
  apply List.filter_congr
  intro c hc
  by_cases hs : strContains c.1 "Unnamed"
  · have hmem : c.1 ∈ (df.cols.map Prod.fst).filter
        (fun n => strContains n "Unnamed") :=
      List.mem_filter.2 ⟨List.mem_map_of_mem Prod.fst hc, hs⟩
    simp [hmem, hs]
  · have hmem : c.1 ∉ (df.cols.map Prod.fst).filter
        (fun n => strContains n "Unnamed") := by
      intro hin
      exact hs (List.mem_filter.1 hin).2
    simp [hmem, hs]

/-! C4 -/

/-- The keys of the per-class survival mapping are the sorted distinct
Pclass values of the table. -/
lemma class_survival_keys_eq (t : Table) :
    (calculate_class_survival_rate t).map Prod.fst =
      groupKeysI (t.map (fun r => r.Pclass)) := by
  rw [calculate_class_survival_rate, List.map_map]
  exact List.map_id _

/-- C4: a class value is a key of the per-class survival mapping exactly
when some row has that Pclass; a class with zero rows is absent from the
result, not mapped to zero. -/
theorem class_survival_keys_spec (t : Table) (c : Int) :
    c ∈ (calculate_class_survival_rate t).map Prod.fst ↔
      ∃ r ∈ t, r.Pclass = c := by
  rw [class_survival_keys_eq]
  simp [groupKeysI, List.mem_insertionSort, List.mem_dedup, List.mem_map]

/-! C8 -/

/-- C8: on a non-empty table in which no Sex value is missing, the
percentages returned by calculate_gender_proportion for the present Sex
categories sum to exactly 100 (the arithmetic is exact over ℚ, so the
floating-rounding allowance is not even needed). -/
theorem gender_proportion_sums_to_100 (t : Table) (hne : t ≠ [])
    (hs : ∀ r ∈ t, r.Sex ≠ none) :
    ((calculate_gender_proportion t).map Prod.snd).sum = 100 := by
  set xs := (t.map (fun r => r.Sex)).filterMap id with hxs
  have hn : xs ≠ [] := by
    obtain ⟨r, t', rfl⟩ := List.exists_cons_of_ne_nil hne
    obtain ⟨s, hsr⟩ := Option.ne_none_iff_exists'.1 (hs r (by simp))
    have hmem : s ∈ xs := by
      rw [hxs]
      exact List.mem_filterMap.2 ⟨some s, by simp [hsr], rfl⟩
    exact List.ne_nil_of_mem hmem
  have hlen : (xs.length : ℚ) ≠ 0 :=
    Nat.cast_ne_zero.2 (fun h => hn (List.length_eq_zero.1 h))
  have hunfold : calculate_gender_proportion t =
      (xs.dedup.map
        (fun k => (k, ((xs.count k : ℚ) / (xs.length : ℚ)) * 100))).insertionSort
        (fun a b => b.2 ≤ a.2) := rfl
  rw [hunfold]
  have hp := List.perm_insertionSort (fun a b : String × ℚ => b.2 ≤ a.2)
    (xs.dedup.map (fun k => (k, ((xs.count k : ℚ) / (xs.length : ℚ)) * 100)))
  rw [((hp.map Prod.snd).sum_eq), List.map_map]
  show (xs.dedup.map
    (fun k => ((xs.count k : ℚ) / (xs.length : ℚ)) * 100)).sum = 100
  rw [show (fun k => ((xs.count k : ℚ) / (xs.length : ℚ)) * 100) =
      (fun k => ((xs.count k : ℚ)) * (100 / (xs.length : ℚ))) from
    funext (fun k => by ring)]
  rw [List.sum_map_mul_right]
  rw [show (xs.dedup.map (fun k => (xs.count k : ℚ))) =
      ((xs.dedup.map (fun k => xs.count k)).map (fun m : ℕ => (m : ℚ))) from by
    rw [List.map_map]; rfl]
  rw [← Nat.cast_list_sum, List.sum_map_count_dedup_eq_length]
  rw [mul_comm, div_mul_cancel₀ 100 hlen]

/-- Witness for C8 at a concrete two-row table with one row per sex. -/
theorem gender_proportion_sums_to_100_witness :
    ([rowA, rowB] : Table) ≠ [] ∧
    (∀ r ∈ ([rowA, rowB] : Table), r.Sex ≠ none) ∧
    ((calculate_gender_proportion [rowA, rowB]).map Prod.snd).sum = 100 :=
  ⟨by simp, by decide,
    gender_proportion_sums_to_100 [rowA, rowB] (by simp) (by decide)⟩

/-! C6 -/

/-- Every key of a value_counts result is a value occurring in the column. -/
lemma value_counts_key_mem (vals : List (Option String)) (p : String × Nat)
    (hp : p ∈ value_counts vals) : some p.1 ∈ vals := by
  have h1 : p ∈ (vals.filterMap id).dedup.map
      (fun k => (k, (vals.filterMap id).count k)) := by
    simpa [value_counts, List.mem_insertionSort] using hp
  obtain ⟨k, hk, rfl⟩ := List.mem_map.1 h1
  have h2 : k ∈ vals.filterMap id := List.mem_dedup.1 hk
  simpa using (List.mem_filterMap.1 h2)

/-- Every key of the gender-proportion mapping is a Sex value of some row. -/
lemma gender_proportion_key_mem (t : Table) (p : String × ℚ)
    (hp : p ∈ calculate_gender_proportion t) : ∃ r ∈ t, r.Sex = some p.1 := by
  have h1 : p ∈ ((t.map (fun r => r.Sex)).filterMap id).dedup.map
      (fun k => (k, ((((t.map (fun r => r.Sex)).filterMap id).count k : ℚ) /
        (((t.map (fun r => r.Sex)).filterMap id).length : ℚ)) * 100)) := by
    simpa [calculate_gender_proportion, List.mem_insertionSort] using hp
  obtain ⟨k, hk, rfl⟩ := List.mem_map.1 h1
  have h2 : k ∈ (t.map (fun r => r.Sex)).filterMap id := List.mem_dedup.1 hk
  have h3 : some k ∈ t.map (fun r => r.Sex) := by
    simpa using List.mem_filterMap.1 h2
  obtain ⟨r, hr, hrk⟩ := List.mem_map.1 h3
  exact ⟨r, hr, hrk⟩

/-- Every key of the per-class survival mapping is the Pclass of some row. -/
lemma class_survival_key_mem (t : Table) (p : Int × ℚ)
    (hp : p ∈ calculate_class_survival_rate t) : ∃ r ∈ t, r.Pclass = p.1 := by
  have h1 : p.1 ∈ (calculate_class_survival_rate t).map Prod.fst :=
    List.mem_map_of_mem Prod.fst hp
  rw [class_survival_keys_eq] at h1
  have h2 : p.1 ∈ t.map (fun r => r.Pclass) := by
    simpa [groupKeysI, List.mem_insertionSort] using h1
  obtain ⟨r, hr, hrk⟩ := List.mem_map.1 h2
  exact ⟨r, hr, hrk⟩

/-- C6: indexing an aggregate mapping at a category no row exhibits misses
(the lookup is a key-not-found, i.e. a KeyError at getitem), shown for the
Sex, Pclass and Embarked aggregates; and the failure is caught nowhere: a
non-empty table with no male row drives the statistics block of main into
the uncaught KeyError raised at the gender lookup, terminating the run. -/
theorem absent_category_key_not_found (t : Table) :
    (∀ c : String, (∀ r ∈ t, r.Sex ≠ some c) →
      (calculate_gender_proportion t).lookup c = none) ∧
    (∀ c : Int, (∀ r ∈ t, r.Pclass ≠ c) →
      (calculate_class_survival_rate t).lookup c = none) ∧
    (∀ c : String, (∀ r ∈ t, r.Embarked ≠ some c) →
      (count_passengers_by_port t).lookup c = none) ∧
    (t ≠ [] → (∀ r ∈ t, r.Sex ≠ some "male") →
      run_stats t = .error (.keyError "male")) := by
  have hsex : ∀ c : String, (∀ r ∈ t, r.Sex ≠ some c) →
      (calculate_gender_proportion t).lookup c = none := by
    intro c hc
    apply lookup_eq_none_of_keys_ne
    intro p hp hpk
    obtain ⟨r, hr, hrs⟩ := gender_proportion_key_mem t p hp
    exact hc r hr (hpk ▸ hrs)
  refine ⟨hsex, ?_, ?_, ?_⟩
  · intro c hc
    apply lookup_eq_none_of_keys_ne
    intro p hp hpk
    obtain ⟨r, hr, hrs⟩ := class_survival_key_mem t p hp
    exact hc r hr (hpk ▸ hrs)
  · intro c hc
    apply lookup_eq_none_of_keys_ne
    intro p hp hpk
    simp only [count_passengers_by_port] at hp
    have hmem := value_counts_key_mem (t.map (fun r => r.Embarked)) p hp
    obtain ⟨r, hr, hrk⟩ := List.mem_map.1 hmem
    exact hc r hr (hpk ▸ hrk)
  · intro hne hm
    have hlen : t.length ≠ 0 := fun h => hne (List.length_eq_zero.1 h)
    have hok : calculate_survival_rate t =
        .ok (((t.map (fun r => (r.Survived : ℚ))).sum) /
          (t.length : ℚ) * 100) := by
      rw [calculate_survival_rate, if_neg hlen]
    have hmale : seriesGetS (calculate_gender_proportion t) "male" =
        .error (.keyError "male") := by
      rw [seriesGetS, hsex "male" hm]
    rw [run_stats, hok]
    simp only [bind, Except.bind]
    rw [hmale]

/-- Witness for C6: a one-row all-female table terminates the statistics
block with the KeyError at the male lookup. -/
theorem absent_category_key_not_found_witness :
    ([rowA] : Table) ≠ [] ∧
    (∀ r ∈ ([rowA] : Table), r.Sex ≠ some "male") ∧
    run_stats [rowA] = .error (.keyError "male") :=
  ⟨by simp, by decide,
    (absent_category_key_not_found [rowA]).2.2.2 (by simp) (by decide)⟩

/-! C5 -/

/-- The running best of the idxmax scan dominates its seed value and every
value in the remaining list. -/
lemma idxmaxFrom_le (k : Int) (v : ℚ) (l : List (Int × ℚ)) :
    v ≤ (idxmaxFrom k v l).2 ∧ ∀ p ∈ l, p.2 ≤ (idxmaxFrom k v l).2 := by
  induction l generalizing k v with
  | nil => simp [idxmaxFrom]
  | cons q l ih =>
    simp only [idxmaxFrom]
    by_cases h : v < q.2
    · rw [if_pos h]
      obtain ⟨h1, h2⟩ := ih q.1 q.2
      refine ⟨le_trans (le_of_lt h) h1, ?_⟩
      intro p hp
      rcases List.mem_cons.1 hp with rfl | hp'
      · exact h1
      · exact h2 p hp'
    · rw [if_neg h]
      obtain ⟨h1, h2⟩ := ih k v
      refine ⟨h1, ?_⟩
      intro p hp
      rcases List.mem_cons.1 hp with rfl | hp'
      · exact le_trans (le_of_not_lt h) h1
      · exact h2 p hp'

/-- The idxmax scan returns its seed or one of the scanned entries. -/
lemma idxmaxFrom_mem (k : Int) (v : ℚ) (l : List (Int × ℚ)) :
    idxmaxFrom k v l = (k, v) ∨ idxmaxFrom k v l ∈ l := by
  induction l generalizing k v with
  | nil => left; rfl
  | cons q l ih =>
    simp only [idxmaxFrom]
    by_cases h : v < q.2
    · rw [if_pos h]
      rcases ih q.1 q.2 with heq | hmem
      · right
        rw [heq, Prod.mk.eta]
        exact List.mem_cons_self q l
      · right
        exact List.mem_cons_of_mem q hmem
    · rw [if_neg h]
      rcases ih k v with heq | hmem
      · left; exact heq
      · right; exact List.mem_cons_of_mem q hmem

/-- The idxmax scan either keeps its seed pair or ends on a strictly larger
value (the best is replaced only on strict improvement). -/
lemma idxmaxFrom_seed_or_lt (k : Int) (v : ℚ) (l : List (Int × ℚ)) :
    idxmaxFrom k v l = (k, v) ∨ v < (idxmaxFrom k v l).2 := by
  induction l generalizing k v with
  | nil => left; rfl
  | cons q l ih =>
    simp only [idxmaxFrom]
    by_cases h : v < q.2
    · rw [if_pos h]
      right
      exact lt_of_lt_of_le h (idxmaxFrom_le q.1 q.2 l).1
    · rw [if_neg h]
      exact ih k v

/-- With keys strictly increasing, the idxmax scan lands on the entry with
the smallest key among those achieving the maximum value. -/
lemma idxmaxFrom_first (k : Int) (v : ℚ) (l : List (Int × ℚ))
    (hs : ((k, v) :: l).Pairwise (fun p q => p.1 < q.1)) :
    ∀ p ∈ (k, v) :: l, p.2 = (idxmaxFrom k v l).2 →
      (idxmaxFrom k v l).1 ≤ p.1 := by
  induction l generalizing k v with
  | nil =>
    intro p hp hpv
    rcases List.mem_cons.1 hp with rfl | hp'
    · simp [idxmaxFrom]
    · simp at hp'
  | cons q l ih =>
    intro p hp hpv
    simp only [idxmaxFrom] at hpv ⊢
    by_cases h : v < q.2
    · rw [if_pos h] at hpv ⊢
      rcases List.mem_cons.1 hp with rfl | hp'
      · exfalso
        have hge : q.2 ≤ (idxmaxFrom q.1 q.2 l).2 := (idxmaxFrom_le q.1 q.2 l).1
        rw [← hpv] at hge
        exact absurd h (not_lt.2 hge)
      · have hs' : ((q.1, q.2) :: l).Pairwise (fun p q => p.1 < q.1) := by
          rw [Prod.mk.eta]
          exact hs.of_cons
        have hp'' : p ∈ (q.1, q.2) :: l := by
          rw [Prod.mk.eta]
          exact hp'
        exact ih q.1 q.2 hs' p hp'' hpv
    · rw [if_neg h] at hpv ⊢
      rcases List.mem_cons.1 hp with rfl | hp'
      · rcases idxmaxFrom_seed_or_lt k v l with heq | hlt
        · rw [heq]
        · exfalso
          rw [← hpv] at hlt
          exact lt_irrefl _ hlt
      · rcases List.mem_cons.1 hp' with rfl | hp''
        · rcases idxmaxFrom_seed_or_lt k v l with heq | hlt
          · rw [heq]
            have hkq := (List.pairwise_cons.1 hs).1 p (List.mem_cons_self p l)
            exact le_of_lt hkq
          · exfalso
            rw [← hpv] at hlt
            exact h hlt
        · have hsub : ((k, v) :: l).Sublist ((k, v) :: q :: l) :=
            List.Sublist.cons₂ (k, v) (List.sublist_cons_self q l)
          have hs' := hs.sublist hsub
          exact ih k v hs' p (List.mem_cons_of_mem (k, v) hp'') hpv

/-- On a non-empty series with strictly increasing keys, idxmax returns the
key of a maximal entry, and the smallest such key. -/
lemma idxmax_ok_spec (l : List (Int × ℚ)) (hne : l ≠ [])
    (hs : l.Pairwise (fun p q => p.1 < q.1)) :
    ∃ m v, idxmax l = .ok m ∧ (m, v) ∈ l ∧
      (∀ p ∈ l, p.2 ≤ v) ∧ (∀ p ∈ l, p.2 = v → m ≤ p.1) := by
  obtain ⟨q, rest, rfl⟩ := List.exists_cons_of_ne_nil hne
  refine ⟨(idxmaxFrom q.1 q.2 rest).1, (idxmaxFrom q.1 q.2 rest).2, rfl,
    ?_, ?_, ?_⟩
  · rw [Prod.mk.eta]
    rcases idxmaxFrom_mem q.1 q.2 rest with heq | hmem
    · rw [heq, Prod.mk.eta]
      exact List.mem_cons_self q rest
    · exact List.mem_cons_of_mem q hmem
  · intro p hp
    rcases List.mem_cons.1 hp with hpq | hp'
    · rw [hpq]
      exact (idxmaxFrom_le q.1 q.2 rest).1
    · exact (idxmaxFrom_le q.1 q.2 rest).2 p hp'
  · intro p hp hpv
    have hs' : ((q.1, q.2) :: rest).Pairwise (fun p q => p.1 < q.1) := by
      rw [Prod.mk.eta]
      exact hs
    have hp' : p ∈ (q.1, q.2) :: rest := by
      rw [Prod.mk.eta]
      exact hp
    exact idxmaxFrom_first q.1 q.2 rest hs' p hp' hpv

/-- The per-class survival mapping has strictly increasing keys: groupby
sorts the distinct class values ascending. -/
lemma class_survival_keys_sorted (t : Table) :
    (calculate_class_survival_rate t).Pairwise (fun p q => p.1 < q.1) := by
  rw [calculate_class_survival_rate, List.pairwise_map]
  have hsorted : (groupKeysI (t.map (fun r => r.Pclass))).Sorted (· ≤ ·) := by
    simp only [groupKeysI]
    exact List.sorted_insertionSort _ _
  have hnodup : (groupKeysI (t.map (fun r => r.Pclass))).Nodup := by
    simp only [groupKeysI]
    exact ((List.perm_insertionSort _ _).symm).nodup
      (List.nodup_dedup (t.map (fun r => r.Pclass)))
  exact hsorted.lt_of_le hnodup

/-- C5: whenever the per-class survival mapping is non-empty, the class
picked by idxmax carries the maximum per-class rate, and among the classes
tied at that maximum it is the first in category (ascending key) order,
i.e. the one with the smallest class value. -/
theorem highest_survival_class_spec (t : Table)
    (h : calculate_class_survival_rate t ≠ []) :
    ∃ m v, idxmax (calculate_class_survival_rate t) = .ok m ∧
      (m, v) ∈ calculate_class_survival_rate t ∧
      (∀ p ∈ calculate_class_survival_rate t, p.2 ≤ v) ∧
      (∀ p ∈ calculate_class_survival_rate t, p.2 = v → m ≤ p.1) :=
  idxmax_ok_spec _ h (class_survival_keys_sorted t)

/-- Witness for C5 at a concrete table with classes 1 and 3. -/
theorem highest_survival_class_spec_witness :
    calculate_class_survival_rate [rowA, rowB] ≠ [] ∧
    (∃ m v, idxmax (calculate_class_survival_rate [rowA, rowB]) = .ok m ∧
      (m, v) ∈ calculate_class_survival_rate [rowA, rowB] ∧
      (∀ p ∈ calculate_class_survival_rate [rowA, rowB], p.2 ≤ v) ∧
      (∀ p ∈ calculate_class_survival_rate [rowA, rowB],
        p.2 = v → m ≤ p.1)) :=
  ⟨by decide, highest_survival_class_spec [rowA, rowB] (by decide)⟩

end Titanic
